import Mathlib

/-!
Verification of the LexVault document-vault core: a shallow embedding of the
error taxonomy (`lib/errors.ts`), the file validator (`file.service.ts`), the
document ingestion and lifecycle manager (`document.service.ts`), the
jurisdiction batch resolver (`jurisdiction.service.ts`), and the token
authority (`auth.service.ts`), together with theorems settling the frozen
claims about them.

Conventions of the embedding:
- TypeScript byte buffers are `List Nat`; strings are `String`.
- Stateful services are explicit state passing: each operation takes the
  current store state and returns a result together with the next state.
- External collaborators (S3, the relational store, Redis) appear as fields
  of the state; their fallibility is injected through explicit boolean
  effect parameters where the source code has a failure path.
- Thrown exceptions become `Except` errors; an exception that is not one of
  the application's own `AppError` subclasses (for example a relational
  store error escaping a transaction) is the `Failure.unhandled` case.
-/

namespace LexVault

/-- Error hierarchy from `lib/errors.ts`: each constructor is one `AppError`
subclass, carrying its message (and for `ValidationError` an optional
details payload). -/
inductive AppError where
  | validationError (message : String) (details : Option (List String))
  | authenticationError (message : String)
  | forbiddenError (message : String)
  | notFoundError (message : String)
  | conflictError (message : String)
  | fileSizeError (message : String)
  | fileTypeError (message : String)
  | internalError (message : String)
deriving Repr, DecidableEq

/-- The `statusCode` field of each `AppError` subclass in `lib/errors.ts`. -/
def AppError.statusCode : AppError → Nat
  | .validationError _ _ => 400
  | .authenticationError _ => 401
  | .forbiddenError _ => 403
  | .notFoundError _ => 404
  | .conflictError _ => 409
  | .fileSizeError _ => 413
  | .fileTypeError _ => 415
  | .internalError _ => 500

/-- A failure observed by a caller: either an `AppError` thrown by the
application, or a foreign exception (for example from the relational store)
that propagates unhandled to the error middleware. -/
inductive Failure where
  | app (e : AppError)
  | unhandled (message : String)
deriving Repr, DecidableEq

/-- Lower-cases a string character by character (models
`String.prototype.toLowerCase` on the ASCII inputs used here). -/
def strLower (s : String) : String := String.mk (s.data.map Char.toLower)

/-- Part of `path.basename`: the characters after the last slash. -/
def pathBasename (s : String) : String :=
  String.mk ((s.data.reverse.takeWhile (fun c => c != '/')).reverse)

/-- Node's `path.extname` on a basename: the substring from the last dot,
or empty when there is no dot or the only dot starts the name. -/
def pathExtname (s : String) : String :=
  let base := (pathBasename s).data
  if base.contains '.' then
    let k := (base.reverse.takeWhile (fun c => c != '.')).length
    let idx := base.length - k - 1
    if idx == 0 then "" else String.mk (base.drop idx)
  else ""

/-- JavaScript `replace(".", "")` on an extname result: removes the leading
dot (an extname has at most one dot, in front). -/
def extWithoutDot (e : String) : String :=
  match e.data with
  | '.' :: rest => String.mk rest
  | l => String.mk l

/-- True when the first list of bytes starts the second (magic-byte test). -/
def bytesStartWith : List Nat → List Nat → Bool
  | [], _ => true
  | _ :: _, [] => false
  | p :: ps, b :: bs => p == b && bytesStartWith ps bs

/-- Models the magic-byte sniffing of the external `file-type` package for
the signatures exercised in this development: PDF, PNG, JPEG and the DOS/PE
executable header. Buffers starting with none of these signatures (notably
all plain text) yield `none`, exactly as `fileTypeFromBuffer` does. -/
def fileTypeFromBuffer (buffer : List Nat) : Option String :=
  if bytesStartWith [0x25, 0x50, 0x44, 0x46] buffer then some "application/pdf"
  else if bytesStartWith [0x89, 0x50, 0x4E, 0x47, 0x0D, 0x0A, 0x1A, 0x0A] buffer then
    some "image/png"
  else if bytesStartWith [0xFF, 0xD8, 0xFF] buffer then some "image/jpeg"
  else if bytesStartWith [0x4D, 0x5A] buffer then some "application/x-msdownload"
  else none

/-- The `ALLOWED_MIME_TYPES` record of `file.service.ts`, verbatim. -/
def ALLOWED_MIME_TYPES : List (String × String) :=
  [("application/pdf", "pdf"),
   ("text/plain", "txt"),
   ("application/msword", "doc"),
   ("application/vnd.openxmlformats-officedocument.wordprocessingml.document", "docx"),
   ("application/vnd.ms-excel", "xls"),
   ("application/vnd.openxmlformats-officedocument.spreadsheetml.sheet", "xlsx"),
   ("text/csv", "csv"),
   ("application/rtf", "rtf"),
   ("image/png", "png"),
   ("image/jpeg", "jpg")]

/-- Record lookup `ALLOWED_MIME_TYPES[mime]`. -/
def lookupMime (mime : String) : Option String :=
  (ALLOWED_MIME_TYPES.find? (fun kv => kv.fst == mime)).map (fun kv => kv.snd)

/-- `FileService.validateFileType`: magic-byte detection first; detected
types must be in the allow list; with no detection, fall back to the claimed
extension for `txt` and `csv`; otherwise an unsupported-type error. -/
def validateFileType (buffer : List Nat) (originalFilename : String) :
    Except AppError (String × String) :=
  match fileTypeFromBuffer buffer with
  | some mime =>
    match lookupMime mime with
    | some ext => .ok (mime, ext)
    | none => .error (.fileTypeError ("File type " ++ mime ++ " is not supported"))
  | none =>
    let fileExt := extWithoutDot (strLower (pathExtname originalFilename))
    if fileExt == "txt" then .ok ("text/plain", "txt")
    else if fileExt == "csv" then .ok ("text/csv", "csv")
    else .error (.fileTypeError "Unable to determine file type")

/-- Control characters stripped by `sanitizeFilename` (`[\x00-\x1f\x7f]`). -/
def isControlChar (c : Char) : Bool := c.toNat < 0x20 || c.toNat == 0x7f

/-- Characters `sanitizeFilename` replaces with underscores. -/
def isUnsafeChar (c : Char) : Bool :=
  c == '<' || c == '>' || c == ':' || c == '"' || c == '/' || c == '\\' ||
  c == '|' || c == '?' || c == '*'

/-- Global, non-overlapping removal of `..` sequences, as
`replace(dotdot-regexp, empty)` performs left to right. -/
def removeDotDot : List Char → List Char
  | '.' :: '.' :: rest => removeDotDot rest
  | c :: rest => c :: removeDotDot rest
  | [] => []

/-- Replaces every maximal run of characters matching `p` with the single
character `rep` (the global regexp replaces of `sanitizeFilename`); the
flag records whether the previous character was part of a run. -/
def collapseRunsOfGo (p : Char → Bool) (rep : Char) (inRun : Bool) :
    List Char → List Char
  | [] => []
  | c :: rest =>
    if p c then
      if inRun then collapseRunsOfGo p rep true rest
      else rep :: collapseRunsOfGo p rep true rest
    else c :: collapseRunsOfGo p rep false rest

/-- Entry point for run collapsing: no run is open at the start. -/
def collapseRunsOf (p : Char → Bool) (rep : Char) (l : List Char) : List Char :=
  collapseRunsOfGo p rep false l

/-- JavaScript `trim()` at this point of the pipeline: control characters
are already stripped and whitespace runs are collapsed to single spaces, so
trimming removes leading and trailing spaces. -/
def strTrim (s : String) : String :=
  String.mk
    (((s.data.dropWhile (fun c => c == ' ')).reverse.dropWhile (fun c => c == ' ')).reverse)

/-- Node `path.basename(s, ext)`: strips a trailing `ext` unless the name is
exactly the extension. -/
def basenameMinusExt (s ext : String) : String :=
  let b := pathBasename s
  if ext.length > 0 && b.endsWith ext && b != ext then
    String.mk (b.data.take (b.length - ext.length))
  else b

/-- `FileService.sanitizeFilename`: strip path components, control
characters and traversal sequences, neutralize unsafe characters, collapse
runs, trim, truncate to 200 characters preserving the extension, and fall
back to a default for degenerate results. -/
def sanitizeFilename (filename : String) : String :=
  let s1 := pathBasename filename
  let s2 := String.mk (s1.data.filter (fun c => !isControlChar c))
  let s3 := String.mk (removeDotDot s2.data)
  let s4 := String.mk (s3.data.map (fun c => if isUnsafeChar c then '_' else c))
  let s5 := String.mk (collapseRunsOf (fun c => c == '_') '_' s4.data)
  let s6 := strTrim (String.mk (collapseRunsOf (fun c => c == ' ') ' ' s5.data))
  let s7 :=
    if s6.length > 200 then
      let ext := pathExtname s6
      let base := basenameMinusExt s6 ext
      String.mk (base.data.take (200 - ext.length)) ++ ext
    else s6
  if s7 == "" || s7 == "." || s7 == ".." then "unnamed_file" else s7

/-- `MAX_FILE_SIZE_MB` (the `env` default and the shared constant). -/
def MAX_FILE_SIZE_MB : Nat := 50

/-- `SOFT_DELETE_RETENTION_DAYS` from `packages/shared/src/constants.ts`. -/
def SOFT_DELETE_RETENTION_DAYS : Nat := 30

/-- A JSON-like value as stored in an audit record's `changes` payload. -/
inductive JsonVal where
  | str (s : String)
  | num (n : Nat)
  | arr (elems : List String)
  | diff (fromVal toVal : JsonVal)
deriving Repr, DecidableEq

/-- A `Document` row of the relational store. -/
structure Document where
  id : String
  userId : String
  title : String
  description : String
  fileKey : String
  fileType : String
  fileSizeBytes : Nat
  originalFilename : String
  contentText : Option String
  tags : List String
  uploadedAt : Nat
  updatedAt : Nat
  deletedAt : Option Nat
deriving Repr, DecidableEq

/-- A `Jurisdiction` row of the relational store. -/
structure Jurisdiction where
  id : String
  name : String
  code : String
  level : String
  parentId : Option String
  legalSystem : String
deriving Repr, DecidableEq

/-- A `DocumentJurisdiction` link row. -/
structure DocumentJurisdiction where
  documentId : String
  jurisdictionId : String
deriving Repr, DecidableEq

/-- An `AuditLog` row as written by `AuditService.logAction`. -/
structure AuditLogRow where
  actorUserId : Option String
  actorIpHash : String
  action : String
  resourceType : String
  resourceId : String
  changes : Option (List (String × JsonVal))
  requestId : String
  outcome : String
  failureReason : Option String
deriving Repr, DecidableEq

/-- The relational store. -/
structure DB where
  documents : List Document
  jurisdictions : List Jurisdiction
  links : List DocumentJurisdiction
  auditLogs : List AuditLogRow
deriving Repr, DecidableEq

/-- A blob held by the S3 store. -/
structure S3Object where
  bytes : List Nat
  contentType : String
  originalFilename : String
deriving Repr, DecidableEq

/-- The state the document service operates over: the relational store, the
blob store, the (never-written) purge task queue, and a counter modelling
the freshness of `randomUUID` and generated row identifiers. -/
structure ServiceState where
  db : DB
  s3Objects : List (String × S3Object)
  purgeTasks : List (String × Nat)
  nextUuid : Nat
deriving Repr, DecidableEq

/-- Models `crypto.randomUUID` and database id generation: the counter in
`ServiceState.nextUuid` stands in for the randomness source, so each draw
is fresh. -/
def uuidStr (n : Nat) : String := "uuid-" ++ toString n

/-- Models the SHA-256 hex digest of `AuditService.hashIP` as an
uninterpreted injective tag; no claim depends on the digest value. -/
def hashIP (ip : String) : String := "sha256:" ++ ip

/-- The input record of `AuditService.logAction`. -/
structure AuditLogEntry where
  actorUserId : Option String
  actorIp : String
  action : String
  resourceType : String
  resourceId : String
  changes : Option (List (String × JsonVal))
  requestId : String
  outcome : String
  failureReason : Option String
deriving Repr, DecidableEq

/-- `AuditService.logAction`: appends one audit row. The source swallows
sink failures (state unchanged, nothing propagates); every claim in this
development exercises the sink-success path, which is what is modelled. -/
def logAction (db : DB) (entry : AuditLogEntry) : DB :=
  { db with
    auditLogs := db.auditLogs ++
      [{ actorUserId := entry.actorUserId
         actorIpHash := hashIP entry.actorIp
         action := entry.action
         resourceType := entry.resourceType
         resourceId := entry.resourceId
         changes := entry.changes
         requestId := entry.requestId
         outcome := entry.outcome
         failureReason := entry.failureReason }] }

/-- First-occurrence deduplication with an accumulator of already-seen
elements: the `[...new Set(ids)]` idiom, which preserves insertion order. -/
def dedupFirstGo (seen : List String) : List String → List String
  | [] => []
  | x :: xs =>
    if seen.contains x then dedupFirstGo seen xs
    else x :: dedupFirstGo (x :: seen) xs

/-- `[...new Set(ids)]`: duplicates removed, first occurrences kept in order. -/
def dedupFirst (l : List String) : List String := dedupFirstGo [] l

/-- The summary shape `getJurisdictionsByIds` selects per row. -/
structure JurisdictionInfo where
  id : String
  name : String
  code : String
  level : String
deriving Repr, DecidableEq

/-- Projection of a jurisdiction row to the selected summary fields. -/
def Jurisdiction.info (j : Jurisdiction) : JurisdictionInfo :=
  { id := j.id, name := j.name, code := j.code, level := j.level }

/-- The message of the batch-resolution validation error, naming every
missing ID. -/
def jurisdictionsNotFoundMsg (missingIds : List String) : String :=
  "The following jurisdiction IDs were not found: " ++ String.intercalate ", " missingIds

/-- `JurisdictionService.getJurisdictionsByIds`: empty input short-circuits;
otherwise the input is deduplicated, looked up in one batch, and when the
found count differs from the deduplicated count the whole batch is rejected
with a validation error naming every missing ID. -/
def getJurisdictionsByIds (db : DB) (ids : List String) :
    Except Failure (List JurisdictionInfo) :=
  if ids.length == 0 then .ok []
  else
    let uniqueIds := dedupFirst ids
    let jurisdictions := db.jurisdictions.filter (fun j => uniqueIds.contains j.id)
    if jurisdictions.length != uniqueIds.length then
      let foundIds := jurisdictions.map (fun j => j.id)
      let missingIds := uniqueIds.filter (fun id => !foundIds.contains id)
      .error (.app (.validationError (jurisdictionsNotFoundMsg missingIds) none))
    else .ok (jurisdictions.map Jurisdiction.info)

/-- The shape `DocumentService.formatDocument` returns: the row with its
jurisdiction links flattened to jurisdiction summaries. -/
structure FormattedDocument where
  id : String
  userId : String
  title : String
  description : String
  fileType : String
  fileSizeBytes : Nat
  originalFilename : String
  tags : List String
  jurisdictions : List JurisdictionInfo
  uploadedAt : Nat
  updatedAt : Nat
deriving Repr, DecidableEq

/-- `DocumentService.formatDocument`: the `include` join realized against
the relational store — each link of the document resolved to its
jurisdiction summary. -/
def formatDocument (db : DB) (doc : Document) : FormattedDocument :=
  { id := doc.id
    userId := doc.userId
    title := doc.title
    description := doc.description
    fileType := doc.fileType
    fileSizeBytes := doc.fileSizeBytes
    originalFilename := doc.originalFilename
    tags := doc.tags
    jurisdictions :=
      (db.links.filter (fun l => l.documentId == doc.id)).filterMap
        (fun l => (db.jurisdictions.find? (fun j => j.id == l.jurisdictionId)).map
          Jurisdiction.info)
    uploadedAt := doc.uploadedAt
    updatedAt := doc.updatedAt }

/-- `DocumentService.getDocument`: lookup by id, soft-delete check, then
ownership check (a non-owner receives `ForbiddenError`). -/
def getDocument (db : DB) (documentId userId : String) :
    Except Failure FormattedDocument :=
  match db.documents.find? (fun d => d.id == documentId) with
  | none => .error (.app (.notFoundError "Document not found"))
  | some document =>
    if document.deletedAt.isSome then .error (.app (.notFoundError "Document not found"))
    else if document.userId != userId then
      .error (.app (.forbiddenError "You do not have access to this document"))
    else .ok (formatDocument db document)

/-- Character-list version of `String.startsWith` for substring search. -/
def charsStartWith : List Char → List Char → Bool
  | [], _ => true
  | _ :: _, [] => false
  | p :: ps, c :: cs => p == c && charsStartWith ps cs

/-- Substring test on character lists. -/
def hasSubChars (pat : List Char) : List Char → Bool
  | [] => pat.isEmpty
  | c :: rest => charsStartWith pat (c :: rest) || hasSubChars pat rest

/-- Case-insensitive substring containment (`contains` with
`mode: insensitive`). -/
def strContainsInsensitive (hay needle : String) : Bool :=
  hasSubChars (strLower needle).data (strLower hay).data

/-- JavaScript truthiness on an optional string filter: an absent or empty
string leaves the corresponding `where` condition off. -/
def strTruthy (o : Option String) : Option String :=
  match o with
  | some s => if s == "" then none else some s
  | none => none

/-- The query parameters of `DocumentService.getDocuments`. -/
structure GetDocumentsParams where
  userId : String
  page : Nat
  pageSize : Nat
  search : Option String
  jurisdictionLevel : Option String
  jurisdictionId : Option String
  fileType : Option String
  sortBy : String
  sortOrder : String
  dateFrom : Option Nat
  dateTo : Option Nat
deriving Repr, DecidableEq

/-- The `where` clause `getDocuments` builds: owner and live-row conditions
always present, then the optional search, file-type, date-range and
jurisdiction filters. -/
def matchesWhere (db : DB) (p : GetDocumentsParams) (d : Document) : Bool :=
  d.userId == p.userId && d.deletedAt == none &&
  (match strTruthy p.search with
   | none => true
   | some s =>
     strContainsInsensitive d.title s || strContainsInsensitive d.description s ||
     d.tags.contains s) &&
  (match strTruthy p.fileType with
   | none => true
   | some ft => d.fileType == ft) &&
  (match p.dateFrom with
   | none => true
   | some t => decide (t ≤ d.uploadedAt)) &&
  (match p.dateTo with
   | none => true
   | some t => decide (d.uploadedAt ≤ t)) &&
  (match strTruthy p.jurisdictionId with
   | some j => db.links.any (fun l => l.documentId == d.id && l.jurisdictionId == j)
   | none =>
     match strTruthy p.jurisdictionLevel with
     | some lvl =>
       db.links.any (fun l =>
         l.documentId == d.id &&
         db.jurisdictions.any (fun jr => jr.id == l.jurisdictionId && jr.level == lvl))
     | none => true)

/-- The `orderBy` comparison: the four sortable columns of the query schema
(`uploadedAt` is the schema default, which the wildcard arm mirrors),
ascending or descending. -/
def docLe (sortBy sortOrder : String) (a b : Document) : Bool :=
  let asc := sortOrder == "asc"
  match sortBy with
  | "title" => if asc then decide (a.title ≤ b.title) else decide (b.title ≤ a.title)
  | "fileSizeBytes" =>
    if asc then decide (a.fileSizeBytes ≤ b.fileSizeBytes)
    else decide (b.fileSizeBytes ≤ a.fileSizeBytes)
  | "updatedAt" =>
    if asc then decide (a.updatedAt ≤ b.updatedAt) else decide (b.updatedAt ≤ a.updatedAt)
  | _ =>
    if asc then decide (a.uploadedAt ≤ b.uploadedAt) else decide (b.uploadedAt ≤ a.uploadedAt)

/-- Ordered insertion for the sort of the returned page. -/
def insertLe (le : Document → Document → Bool) (d : Document) :
    List Document → List Document
  | [] => [d]
  | x :: xs => if le d x then d :: x :: xs else x :: insertLe le d xs

/-- Insertion sort realizing the store's `orderBy`. -/
def sortDocs (le : Document → Document → Bool) : List Document → List Document
  | [] => []
  | x :: xs => insertLe le x (sortDocs le xs)

/-- The pagination envelope of a list response. -/
structure Pagination where
  page : Nat
  pageSize : Nat
  total : Nat
  totalPages : Nat
deriving Repr, DecidableEq

/-- A page of formatted documents with its pagination envelope. -/
structure DocumentsPage where
  data : List FormattedDocument
  pagination : Pagination
deriving Repr, DecidableEq

/-- `DocumentService.getDocuments`: filter by the `where` clause, sort,
paginate with `skip`/`take`, and format each row. -/
def getDocuments (db : DB) (p : GetDocumentsParams) : DocumentsPage :=
  let skip := (p.page - 1) * p.pageSize
  let matching := db.documents.filter (matchesWhere db p)
  let sorted := sortDocs (docLe p.sortBy p.sortOrder) matching
  let pageDocs := (sorted.drop skip).take p.pageSize
  let total := matching.length
  { data := pageDocs.map (formatDocument db)
    pagination :=
      { page := p.page, pageSize := p.pageSize, total := total
        totalPages := (total + p.pageSize - 1) / p.pageSize } }

/-- The input of `DocumentService.updateDocument`; absent fields are the
`undefined` optionals of the source. -/
structure UpdateDocumentParams where
  userId : String
  documentId : String
  title : Option String
  description : Option String
  tags : Option (List String)
  requestId : String
  actorIp : String
deriving Repr, DecidableEq

/-- Result triple of the update embedding: the caller-visible result, the
next state, and whether the source reached the relational `update` call
(`true` exactly on the branch that performs the write and the audit
emission). -/
structure UpdateOutcome where
  result : Except Failure FormattedDocument
  state : ServiceState
  wrote : Bool
deriving Repr

/-- `DocumentService.updateDocument`: lookup, soft-delete and ownership
checks; `title` and `description` enter the update data only when they
differ from the stored values, while a supplied `tags` field always does;
an empty update data short-circuits to `getDocument` with no write and no
audit; otherwise the row is updated and one `document.update` audit record
is appended with the computed change diff. -/
def updateDocument (st : ServiceState) (p : UpdateDocumentParams) : UpdateOutcome :=
  match st.db.documents.find? (fun d => d.id == p.documentId) with
  | none =>
    { result := .error (.app (.notFoundError "Document not found")), state := st, wrote := false }
  | some existing =>
    if existing.deletedAt.isSome then
      { result := .error (.app (.notFoundError "Document not found")), state := st, wrote := false }
    else if existing.userId != p.userId then
      { result := .error (.app (.forbiddenError "You do not have access to this document"))
        state := st, wrote := false }
    else
      let updTitle := match p.title with
        | some t => if t != existing.title then some t else none
        | none => none
      let updDescription := match p.description with
        | some ds => if ds != existing.description then some ds else none
        | none => none
      let updTags := p.tags
      let changes : List (String × JsonVal) :=
        (match updTitle with
         | some t => [("title", JsonVal.diff (.str existing.title) (.str t))]
         | none => []) ++
        (match updDescription with
         | some ds => [("description", JsonVal.diff (.str existing.description) (.str ds))]
         | none => []) ++
        (match updTags with
         | some ts => [("tags", JsonVal.diff (.arr existing.tags) (.arr ts))]
         | none => [])
      if updTitle.isNone && updDescription.isNone && updTags.isNone then
        { result := getDocument st.db p.documentId p.userId, state := st, wrote := false }
      else
        let newDoc := { existing with
          title := updTitle.getD existing.title
          description := updDescription.getD existing.description
          tags := updTags.getD existing.tags }
        let db1 := { st.db with
          documents := st.db.documents.map
            (fun d => if d.id == p.documentId then newDoc else d) }
        let db2 := logAction db1
          { actorUserId := some p.userId
            actorIp := p.actorIp
            action := "document.update"
            resourceType := "document"
            resourceId := p.documentId
            changes := some changes
            requestId := p.requestId
            outcome := "success"
            failureReason := none }
        { result := .ok (formatDocument db2 newDoc), state := { st with db := db2 }, wrote := true }

/-- `DocumentService.deleteDocument` (soft delete): lookup, soft-delete and
ownership checks, then set `deletedAt` and append one `document.delete`
audit record. The purge task queue is untouched: the source schedules
nothing. -/
def deleteDocument (st : ServiceState) (documentId userId requestId actorIp : String)
    (now : Nat) : Except Failure Unit × ServiceState :=
  match st.db.documents.find? (fun d => d.id == documentId) with
  | none => (.error (.app (.notFoundError "Document not found")), st)
  | some existing =>
    if existing.deletedAt.isSome then
      (.error (.app (.notFoundError "Document not found")), st)
    else if existing.userId != userId then
      (.error (.app (.forbiddenError "You do not have access to this document")), st)
    else
      let db1 := { st.db with
        documents := st.db.documents.map
          (fun d => if d.id == documentId then { d with deletedAt := some now } else d) }
      let db2 := logAction db1
        { actorUserId := some userId
          actorIp := actorIp
          action := "document.delete"
          resourceType := "document"
          resourceId := documentId
          changes := none
          requestId := requestId
          outcome := "success"
          failureReason := none }
      (.ok (), { st with db := db2 })

/-- `FileService.getFileStream`: an S3 `GetObject` that yields the stored
bytes with their content type and length, or the storage internal error on
any S3 failure (including a missing key, whose exception is caught and
wrapped the same way). -/
def getFileStream (st : ServiceState) (fileKey : String) (s3GetOk : Bool) :
    Except Failure (List Nat × String × Nat) :=
  if !s3GetOk then .error (.app (.internalError "Failed to retrieve file from storage"))
  else
    match st.s3Objects.find? (fun kv => kv.fst == fileKey) with
    | none => .error (.app (.internalError "Failed to retrieve file from storage"))
    | some kv => .ok (kv.snd.bytes, kv.snd.contentType, kv.snd.bytes.length)

/-- The caller-visible result of a download. -/
structure DownloadResult where
  bytes : List Nat
  contentType : String
  contentLength : Nat
  filename : String
deriving Repr, DecidableEq

/-- `DocumentService.downloadDocument`: lookup, soft-delete and ownership
checks, then the S3 read and one `document.download` audit record; the
content type served is the one stored with the blob, not anything the
client claimed at download time. -/
def downloadDocument (st : ServiceState) (documentId userId requestId actorIp : String)
    (s3GetOk : Bool) : Except Failure DownloadResult × ServiceState :=
  match st.db.documents.find? (fun d => d.id == documentId) with
  | none => (.error (.app (.notFoundError "Document not found")), st)
  | some document =>
    if document.deletedAt.isSome then
      (.error (.app (.notFoundError "Document not found")), st)
    else if document.userId != userId then
      (.error (.app (.forbiddenError "You do not have access to this document")), st)
    else
      match getFileStream st document.fileKey s3GetOk with
      | .error f => (.error f, st)
      | .ok (bytes, contentType, contentLength) =>
        let db2 := logAction st.db
          { actorUserId := some userId
            actorIp := actorIp
            action := "document.download"
            resourceType := "document"
            resourceId := documentId
            changes := none
            requestId := requestId
            outcome := "success"
            failureReason := none }
        (.ok { bytes := bytes, contentType := contentType
               contentLength := contentLength, filename := document.originalFilename },
         { st with db := db2 })

/-- `FileService.generateFileKey`: `uploads/userId/uuid.ext`. -/
def generateFileKey (userId ext : String) (n : Nat) : String :=
  "uploads/" ++ userId ++ "/" ++ uuidStr n ++ "." ++ ext

/-- Models the external `pdf-parse` extraction; no claim depends on the
extracted text, and the source itself falls back to the empty string when
extraction fails. -/
def extractPdfText (_buffer : List Nat) : String := ""

/-- `FileService.deleteFromS3`: removes a blob, or surfaces the storage
internal error when S3 fails. Present in the source, but never invoked on
the upload path. -/
def deleteFromS3 (st : ServiceState) (fileKey : String) (s3DeleteOk : Bool) :
    Except Failure Unit × ServiceState :=
  if !s3DeleteOk then (.error (.app (.internalError "Failed to delete file from storage")), st)
  else (.ok (), { st with s3Objects := st.s3Objects.filter (fun kv => kv.fst != fileKey) })

/-- The file part of an upload request. -/
structure UploadFile where
  buffer : List Nat
  originalname : String
  size : Nat
deriving Repr, DecidableEq

/-- The input of `DocumentService.uploadDocument`. -/
structure UploadDocumentParams where
  userId : String
  title : String
  description : Option String
  tags : Option (List String)
  jurisdictionIds : List String
  file : UploadFile
  requestId : String
  actorIp : String
deriving Repr, DecidableEq

/-- Behaviour of the external stores during one upload: whether the S3 put
succeeds, and whether the relational metadata-plus-links transaction
commits. -/
structure UploadEffects where
  s3PutOk : Bool
  txOk : Bool
deriving Repr, DecidableEq

/-- `DocumentService.uploadDocument`: size gate, filename sanitization and
magic-byte validation, jurisdiction batch resolution, S3 put under a fresh
key, then the metadata-plus-links transaction and one `document.upload`
audit record. A transaction failure after the blob write propagates the
store's own exception and leaves the blob in place — the source has no
compensating delete. -/
def uploadDocument (st : ServiceState) (p : UploadDocumentParams) (eff : UploadEffects)
    (now : Nat) : Except Failure FormattedDocument × ServiceState :=
  let maxBytes := MAX_FILE_SIZE_MB * 1024 * 1024
  if p.file.size > maxBytes then
    (.error (.app (.fileSizeError "File size exceeds the 50 MB limit")), st)
  else
    let sanitizedFilename := sanitizeFilename p.file.originalname
    match validateFileType p.file.buffer sanitizedFilename with
    | .error e => (.error (.app e), st)
    | .ok (mimeType, extension) =>
      match getJurisdictionsByIds st.db p.jurisdictionIds with
      | .error f => (.error f, st)
      | .ok _ =>
        let fileKey := generateFileKey p.userId extension st.nextUuid
        let st1 := { st with nextUuid := st.nextUuid + 1 }
        if !eff.s3PutOk then
          (.error (.app (.internalError "Failed to upload file to storage")), st1)
        else
          let st2 := { st1 with
            s3Objects := (fileKey,
              { bytes := p.file.buffer, contentType := mimeType
                originalFilename := sanitizedFilename }) :: st1.s3Objects }
          let contentText :=
            if extension == "pdf" then some (extractPdfText p.file.buffer) else none
          if !eff.txOk then
            (.error (.unhandled "Relational store transaction failed"), st2)
          else
            let docId := uuidStr st2.nextUuid
            let st3 := { st2 with nextUuid := st2.nextUuid + 1 }
            let doc : Document :=
              { id := docId
                userId := p.userId
                title := p.title
                description := p.description.getD ""
                fileKey := fileKey
                fileType := extension
                fileSizeBytes := p.file.size
                originalFilename := sanitizedFilename
                contentText := contentText
                tags := p.tags.getD []
                uploadedAt := now
                updatedAt := now
                deletedAt := none }
            let db1 := { st3.db with
              documents := st3.db.documents ++ [doc]
              links := st3.db.links ++
                p.jurisdictionIds.map
                  (fun jId => { documentId := docId, jurisdictionId := jId }) }
            let db2 := logAction db1
              { actorUserId := some p.userId
                actorIp := p.actorIp
                action := "document.upload"
                resourceType := "document"
                resourceId := docId
                changes := some
                  [("title", JsonVal.str p.title),
                   ("fileType", JsonVal.str extension),
                   ("fileSizeBytes", JsonVal.num p.file.size),
                   ("jurisdictionIds", JsonVal.arr p.jurisdictionIds)]
                requestId := p.requestId
                outcome := "success"
                failureReason := none }
            (.ok (formatDocument db2 doc), { st3 with db := db2 })

/-- The decoded JWT payload the auth service works with: user, unique token
id, the `type` discriminator, and expiry. -/
structure TokenPayload where
  userId : String
  jti : String
  type : String
  exp : Nat
deriving Repr, DecidableEq

/-- A signed token: its payload together with the secret it was signed with
(standing in for the HMAC signature) and the fixed issuer/audience claims
`jwt.sign` attaches. -/
structure SignedToken where
  payload : TokenPayload
  secret : String
  issuer : String
  audience : String
deriving Repr, DecidableEq

/-- Models `jwt.sign(payload, secret, options)` as used by
`generateTokens`. -/
def jwtSign (payload : TokenPayload) (secret : String) : SignedToken :=
  { payload := payload, secret := secret, issuer := "lexvault", audience := "lexvault-api" }

/-- Models `jwt.verify(token, secret)` as the auth service calls it (no
issuer or audience option): the signature check is secret equality, and an
expired token fails. -/
def jwtVerify (t : SignedToken) (secret : String) (now : Nat) : Option TokenPayload :=
  if t.secret == secret && decide (now < t.payload.exp) then some t.payload else none

/-- State of the token authority: the revocation store (the set of revoked
token ids held in Redis) and the `randomUUID` freshness counter. TTLs on
revocation entries are not modelled; no claim depends on their expiry. -/
structure AuthState where
  revoked : List String
  nextUuid : Nat
deriving Repr, DecidableEq

/-- The `JWT_EXPIRY` default (`15m`) in seconds. -/
def JWT_EXPIRY_SECONDS : Nat := 15 * 60

/-- The `JWT_REFRESH_EXPIRY` default (`7d`) in seconds. -/
def JWT_REFRESH_EXPIRY_SECONDS : Nat := 7 * 24 * 60 * 60

/-- `AuthService.generateTokens`: two fresh token ids, an `access` token
with the short expiry and a `refresh` token with the long one. -/
def generateTokens (st : AuthState) (userId secret : String) (now : Nat) :
    (SignedToken × SignedToken) × AuthState :=
  let accessJti := uuidStr st.nextUuid
  let refreshJti := uuidStr (st.nextUuid + 1)
  let accessToken := jwtSign
    { userId := userId, jti := accessJti, type := "access", exp := now + JWT_EXPIRY_SECONDS }
    secret
  let refreshTok := jwtSign
    { userId := userId, jti := refreshJti, type := "refresh"
      exp := now + JWT_REFRESH_EXPIRY_SECONDS } secret
  ((accessToken, refreshTok), { st with nextUuid := st.nextUuid + 2 })

/-- The read phase of `AuthService.refreshToken`: signature and expiry
verification (any `jwt.verify` exception is caught and mapped to the
invalid-or-expired authentication error), the `type` check, and the
revocation-store lookup — everything before the rotation writes. -/
def refreshCheck (st : AuthState) (t : SignedToken) (secret : String) (now : Nat) :
    Except Failure TokenPayload :=
  match jwtVerify t secret now with
  | none => .error (.app (.authenticationError "Invalid or expired refresh token"))
  | some payload =>
    if payload.type != "refresh" then
      .error (.app (.authenticationError "Invalid token type"))
    else if st.revoked.contains payload.jti then
      .error (.app (.authenticationError "Token has been revoked"))
    else .ok payload

/-- The write phase of `AuthService.refreshToken`: insert the presented
token's id into the revocation store, then mint the new pair. -/
def refreshCommit (st : AuthState) (payload : TokenPayload) (secret : String) (now : Nat) :
    (SignedToken × SignedToken) × AuthState :=
  let st1 := { st with revoked := payload.jti :: st.revoked }
  generateTokens st1 payload.userId secret now

/-- `AuthService.refreshToken` (rotation): the read phase followed, on
success, by the write phase. The source interposes no deduplication
mechanism between the two phases. -/
def refreshToken (st : AuthState) (t : SignedToken) (secret : String) (now : Nat) :
    Except Failure (SignedToken × SignedToken) × AuthState :=
  match refreshCheck st t secret now with
  | .error f => (.error f, st)
  | .ok payload =>
    let (pair, st') := refreshCommit st payload secret now
    (.ok pair, st')

/-! Concrete fixtures: a small populated store used by the closed
counterexamples and witnesses below. -/

/-- Fixture: the provincial node British Columbia. -/
def jBC : Jurisdiction :=
  { id := "bc-id", name := "British Columbia", code := "BC", level := "provincial"
    parentId := some "ca-id", legalSystem := "common_law" }

/-- Fixture: the municipal node Vancouver. -/
def jVan : Jurisdiction :=
  { id := "van-id", name := "Vancouver", code := "VAN", level := "municipal"
    parentId := some "bc-id", legalSystem := "common_law" }

/-- Fixture: a live text document owned by alice. -/
def docAlice : Document :=
  { id := "doc-1", userId := "alice", title := "Alice notes", description := "desc"
    fileKey := "uploads/alice/uuid-9.txt", fileType := "txt", fileSizeBytes := 5
    originalFilename := "notes.txt", contentText := none, tags := ["x", "y"]
    uploadedAt := 100, updatedAt := 100, deletedAt := none }

/-- Fixture: a soft-deleted document owned by alice. -/
def docGone : Document :=
  { id := "doc-2", userId := "alice", title := "Old notes", description := ""
    fileKey := "uploads/alice/uuid-8.txt", fileType := "txt", fileSizeBytes := 3
    originalFilename := "old.txt", contentText := none, tags := []
    uploadedAt := 50, updatedAt := 60, deletedAt := some 200 }

/-- Fixture: the relational store holding both documents, the two
jurisdiction nodes, and one link for the live document. -/
def demoDB : DB :=
  { documents := [docAlice, docGone]
    jurisdictions := [jBC, jVan]
    links := [{ documentId := "doc-1", jurisdictionId := "bc-id" }]
    auditLogs := [] }

/-- Fixture: full service state — both blobs present, empty purge queue. -/
def demoState : ServiceState :=
  { db := demoDB
    s3Objects :=
      [("uploads/alice/uuid-9.txt",
        { bytes := [0x68, 0x65, 0x6C, 0x6C, 0x6F], contentType := "text/plain"
          originalFilename := "notes.txt" }),
       ("uploads/alice/uuid-8.txt",
        { bytes := [0x68, 0x69], contentType := "text/plain"
          originalFilename := "old.txt" })]
    purgeTasks := []
    nextUuid := 0 }

/-- Fixture: a valid 5-byte `notes.txt` upload by alice with one
jurisdiction reference. -/
def upParamsTxt : UploadDocumentParams :=
  { userId := "alice", title := "hello doc", description := none, tags := none
    jurisdictionIds := ["bc-id"]
    file := { buffer := [0x68, 0x65, 0x6C, 0x6C, 0x6F], originalname := "notes.txt", size := 5 }
    requestId := "req-up", actorIp := "1.2.3.4" }

/-- Fixture: the scenario upload — `notes.txt` containing `hello` with
duplicated tags and the two jurisdiction references. -/
def upParamsDup : UploadDocumentParams :=
  { userId := "alice", title := "scenario doc", description := none
    tags := some ["x", "x", "y"]
    jurisdictionIds := ["bc-id", "van-id"]
    file := { buffer := [0x68, 0x65, 0x6C, 0x6C, 0x6F], originalname := "notes.txt", size := 10 }
    requestId := "req-dup", actorIp := "1.2.3.4" }

/-- Fixture: eight PNG signature bytes followed by payload. -/
def pngBytes : List Nat := [0x89, 0x50, 0x4E, 0x47, 0x0D, 0x0A, 0x1A, 0x0A, 0x01]

/-- Fixture: a plain first-page listing query by alice. -/
def demoQuery : GetDocumentsParams :=
  { userId := "alice", page := 1, pageSize := 20, search := none
    jurisdictionLevel := none, jurisdictionId := none, fileType := none
    sortBy := "uploadedAt", sortOrder := "desc", dateFrom := none, dateTo := none }

/-- Fixture: a metadata update addressed at the soft-deleted document. -/
def updGoneParams : UpdateDocumentParams :=
  { userId := "alice", documentId := "doc-2", title := some "revived"
    description := none, tags := none, requestId := "r", actorIp := "i" }

/-- Fixture: an empty token-authority state. -/
def authSt0 : AuthState := { revoked := [], nextUuid := 0 }

/-- Fixture: a refresh token for user u1, unexpired at the sample times. -/
def tokRefresh : SignedToken :=
  jwtSign { userId := "u1", jti := "jti-0", type := "refresh", exp := 1000 } "s"

/-! Theorems. General-purpose lemmas about the embedding come first; the
claim theorems follow. -/

/-- In a store whose document ids are pairwise distinct, lookup by a
member's id returns that member. -/
theorem find?_doc_of_mem {l : List Document} {d : Document}
    (hnd : (l.map Document.id).Nodup) (hmem : d ∈ l) :
    l.find? (fun x => x.id == d.id) = some d := by
  induction l with
  | nil => cases hmem
  | cons a rest ih =>
    rw [List.map_cons, List.nodup_cons] at hnd
    rcases List.mem_cons.mp hmem with rfl | hmem'
    · exact List.find?_cons_of_pos _ (by simp)
    · have hne : (a.id == d.id) = false := by
        simp only [beq_eq_false_iff_ne, ne_eq]
        intro h
        exact hnd.1 (h ▸ List.mem_map_of_mem Document.id hmem')
      rw [List.find?_cons_of_neg _ (by simp [hne])]
      exact ih hnd.2 hmem'

/-- Two members of a store with pairwise-distinct document ids that share
an id are the same row. -/
theorem doc_eq_of_id_eq {l : List Document} {a b : Document}
    (hnd : (l.map Document.id).Nodup) (ha : a ∈ l) (hb : b ∈ l) (h : a.id = b.id) :
    a = b :=
  List.inj_on_of_nodup_map hnd ha hb h

/-- Ordered insertion neither adds nor removes elements. -/
theorem mem_insertLe {le : Document → Document → Bool} {d x : Document}
    {l : List Document} : x ∈ insertLe le d l ↔ x = d ∨ x ∈ l := by
  induction l with
  | nil => simp [insertLe]
  | cons a rest ih =>
    by_cases h : le d a <;> simp [insertLe, h, ih] <;> tauto

/-- The sort of `getDocuments` preserves membership. -/
theorem mem_sortDocs {le : Document → Document → Bool} {x : Document}
    {l : List Document} : x ∈ sortDocs le l ↔ x ∈ l := by
  induction l with
  | nil => simp [sortDocs]
  | cons a rest ih => simp [sortDocs, mem_insertLe, ih]

/-- Membership through first-occurrence deduplication with a seen set. -/
theorem mem_dedupFirstGo {seen l : List String} {x : String} :
    x ∈ dedupFirstGo seen l ↔ x ∈ l ∧ x ∉ seen := by
  induction l generalizing seen with
  | nil => simp [dedupFirstGo]
  | cons y ys ih =>
    by_cases hym : y ∈ seen
    · rw [show dedupFirstGo seen (y :: ys) = dedupFirstGo seen ys from by
        simp [dedupFirstGo, hym]]
      rw [ih]
      constructor
      · rintro ⟨hx, hs⟩
        exact ⟨List.mem_cons.mpr (Or.inr hx), hs⟩
      · rintro ⟨hx, hs⟩
        rcases List.mem_cons.mp hx with rfl | hx'
        · exact absurd hym hs
        · exact ⟨hx', hs⟩
    · rw [show dedupFirstGo seen (y :: ys) = y :: dedupFirstGo (y :: seen) ys from by
        simp [dedupFirstGo, hym]]
      constructor
      · intro hx
        rcases List.mem_cons.mp hx with rfl | hx'
        · exact ⟨List.mem_cons_self x ys, hym⟩
        · rcases ih.mp hx' with ⟨hin, hns⟩
          refine ⟨List.mem_cons.mpr (Or.inr hin), ?_⟩
          intro hc
          exact hns (List.mem_cons.mpr (Or.inr hc))
      · rintro ⟨hx, hs⟩
        rcases List.mem_cons.mp hx with rfl | hx'
        · exact List.mem_cons_self x _
        · by_cases hxy : x = y
          · exact hxy ▸ List.mem_cons_self y _
          · refine List.mem_cons.mpr (Or.inr (ih.mpr ⟨hx', ?_⟩))
            intro hc
            rcases List.mem_cons.mp hc with h1 | h2
            · exact hxy h1
            · exact hs h2

/-- First-occurrence deduplication yields no duplicates. -/
theorem nodup_dedupFirstGo {seen l : List String} : (dedupFirstGo seen l).Nodup := by
  induction l generalizing seen with
  | nil => simp [dedupFirstGo]
  | cons y ys ih =>
    by_cases hym : y ∈ seen
    · rw [show dedupFirstGo seen (y :: ys) = dedupFirstGo seen ys from by
        simp [dedupFirstGo, hym]]
      exact ih
    · rw [show dedupFirstGo seen (y :: ys) = y :: dedupFirstGo (y :: seen) ys from by
        simp [dedupFirstGo, hym]]
      refine List.nodup_cons.mpr ⟨?_, ih⟩
      intro hmem
      exact (mem_dedupFirstGo.mp hmem).2 (List.mem_cons_self y seen)

/-- Membership through `dedupFirst`. -/
theorem mem_dedupFirst {l : List String} {x : String} :
    x ∈ dedupFirst l ↔ x ∈ l := by
  simp [dedupFirst, mem_dedupFirstGo]

/-- `dedupFirst` yields no duplicates. -/
theorem nodup_dedupFirst (l : List String) : (dedupFirst l).Nodup :=
  nodup_dedupFirstGo

/-- The ids selected by the batch lookup are exactly the store ids that
occur in the deduplicated input. -/
theorem mem_batch_found (db : DB) (ids : List String) (i : String) :
    i ∈ (db.jurisdictions.filter (fun j => (dedupFirst ids).contains j.id)).map
        Jurisdiction.id ↔
    i ∈ db.jurisdictions.map Jurisdiction.id ∧ i ∈ dedupFirst ids := by
  simp only [List.mem_map, List.mem_filter]
  constructor
  · rintro ⟨j, ⟨hj, hc⟩, rfl⟩
    exact ⟨⟨j, hj, rfl⟩, by simpa using hc⟩
  · rintro ⟨⟨j, hj, rfl⟩, hu⟩
    exact ⟨j, ⟨hj, by simpa using hu⟩, rfl⟩

/-- C7: with pairwise-distinct store ids, `getJurisdictionsByIds` either
returns nodes covering every requested id (all ids exist), or rejects the
whole batch with a validation error naming exactly the set of missing
ids — all of them; it never partially accepts a batch containing an
unknown id. -/
theorem getJurisdictionsByIds_all_or_nothing (db : DB) (ids : List String)
    (hnd : (db.jurisdictions.map Jurisdiction.id).Nodup) :
    (match getJurisdictionsByIds db ids with
     | .ok js =>
       (∀ i ∈ ids, i ∈ db.jurisdictions.map Jurisdiction.id) ∧
       (∀ i, i ∈ js.map JurisdictionInfo.id ↔
         i ∈ ids ∧ i ∈ db.jurisdictions.map Jurisdiction.id)
     | .error f =>
       ∃ missing,
         f = .app (.validationError (jurisdictionsNotFoundMsg missing) none) ∧
         missing ≠ [] ∧
         (∀ i, i ∈ missing ↔ i ∈ ids ∧ i ∉ db.jurisdictions.map Jurisdiction.id)) := by
  by_cases hids : ids = []
  · subst hids
    simp [getJurisdictionsByIds]
  have hids' : (ids.length == 0) = false := by
    simp [List.length_eq_zero, hids]
  -- Shared abbreviations and counting facts.
  have hfound_nodup :
      ((db.jurisdictions.filter (fun j => (dedupFirst ids).contains j.id)).map
        Jurisdiction.id).Nodup :=
    hnd.sublist ((List.filter_sublist db.jurisdictions).map Jurisdiction.id)
  have hkeep_nodup :
      ((dedupFirst ids).filter
        (fun i => (db.jurisdictions.map Jurisdiction.id).contains i)).Nodup :=
    (nodup_dedupFirst ids).filter _
  have hperm :
      List.Perm
        ((db.jurisdictions.filter (fun j => (dedupFirst ids).contains j.id)).map
          Jurisdiction.id)
        ((dedupFirst ids).filter
          (fun i => (db.jurisdictions.map Jurisdiction.id).contains i)) := by
    rw [List.perm_ext_iff_of_nodup hfound_nodup hkeep_nodup]
    intro i
    rw [mem_batch_found]
    simp only [List.mem_filter]
    constructor
    · rintro ⟨hdb, hu⟩
      exact ⟨hu, by simpa using hdb⟩
    · rintro ⟨hu, hdb⟩
      exact ⟨by simpa using hdb, hu⟩
  have hlen :
      (db.jurisdictions.filter (fun j => (dedupFirst ids).contains j.id)).length =
      ((dedupFirst ids).filter
        (fun i => (db.jurisdictions.map Jurisdiction.id).contains i)).length := by
    have := hperm.length_eq
    simpa using this
  have hsplit :
      (dedupFirst ids).length =
      ((dedupFirst ids).filter
        (fun i => (db.jurisdictions.map Jurisdiction.id).contains i)).length +
      ((dedupFirst ids).filter
        (fun i => !(db.jurisdictions.map Jurisdiction.id).contains i)).length :=
    (dedupFirst ids).length_eq_length_filter_add _
  -- The code computes missing ids against the found rows; that equals the
  -- filter against the store ids.
  have hmiss_eq :
      (dedupFirst ids).filter
        (fun i => !((db.jurisdictions.filter
          (fun j => (dedupFirst ids).contains j.id)).map Jurisdiction.id).contains i) =
      (dedupFirst ids).filter
        (fun i => !(db.jurisdictions.map Jurisdiction.id).contains i) := by
    apply List.filter_congr
    intro i hi
    have hiff : (i ∈ (db.jurisdictions.filter (fun j => (dedupFirst ids).contains j.id)).map
        Jurisdiction.id) ↔ i ∈ db.jurisdictions.map Jurisdiction.id := by
      rw [mem_batch_found]
      exact ⟨fun h => h.1, fun h => ⟨h, hi⟩⟩
    have hc1 : ((db.jurisdictions.filter (fun j => (dedupFirst ids).contains j.id)).map
        Jurisdiction.id).contains i =
        (db.jurisdictions.map Jurisdiction.id).contains i := by
      rw [List.contains, List.contains, List.elem_eq_mem, List.elem_eq_mem]
      by_cases hdb : i ∈ db.jurisdictions.map Jurisdiction.id
      · rw [decide_eq_true (hiff.mpr hdb), decide_eq_true hdb]
      · rw [decide_eq_false (fun hc => hdb (hiff.mp hc)), decide_eq_false hdb]
    rw [hc1]
  by_cases hne :
      (db.jurisdictions.filter (fun j => (dedupFirst ids).contains j.id)).length =
      (dedupFirst ids).length
  · -- All requested ids are present: the ok branch.
    have hmiss_nil :
        (dedupFirst ids).filter
          (fun i => !(db.jurisdictions.map Jurisdiction.id).contains i) = [] := by
      have : ((dedupFirst ids).filter
          (fun i => !(db.jurisdictions.map Jurisdiction.id).contains i)).length = 0 := by
        omega
      exact List.length_eq_zero.mp this
    have hall : ∀ i ∈ dedupFirst ids, i ∈ db.jurisdictions.map Jurisdiction.id := by
      intro i hi
      have := List.filter_eq_nil_iff.mp hmiss_nil i hi
      simpa using this
    have hcond : ((db.jurisdictions.filter
        (fun j => (dedupFirst ids).contains j.id)).length !=
        (dedupFirst ids).length) = false := by
      rw [hne]
      exact bne_self_eq_false _
    have heval : getJurisdictionsByIds db ids =
        .ok ((db.jurisdictions.filter
          (fun j => (dedupFirst ids).contains j.id)).map Jurisdiction.info) := by
      simp only [getJurisdictionsByIds, hids', Bool.false_eq_true, if_false, hcond]
    rw [heval]
    refine ⟨?_, ?_⟩
    · intro i hi
      exact hall i (mem_dedupFirst.mpr hi)
    · intro i
      have hmm : ((db.jurisdictions.filter
          (fun j => (dedupFirst ids).contains j.id)).map Jurisdiction.info).map
          JurisdictionInfo.id =
          (db.jurisdictions.filter
            (fun j => (dedupFirst ids).contains j.id)).map Jurisdiction.id := by
        rw [List.map_map]
        rfl
      rw [hmm, mem_batch_found]
      constructor
      · rintro ⟨hdb, hu⟩
        exact ⟨mem_dedupFirst.mp hu, hdb⟩
      · rintro ⟨hin, hdb⟩
        exact ⟨hdb, mem_dedupFirst.mpr hin⟩
  · -- Some id is missing: the error branch names all of them.
    have hcond : ((db.jurisdictions.filter
        (fun j => (dedupFirst ids).contains j.id)).length !=
        (dedupFirst ids).length) = true := by
      simp only [bne_iff_ne, ne_eq]
      exact hne
    have heval : getJurisdictionsByIds db ids =
        .error (.app (.validationError
          (jurisdictionsNotFoundMsg ((dedupFirst ids).filter
            (fun i => !((db.jurisdictions.filter
              (fun j => (dedupFirst ids).contains j.id)).map
                Jurisdiction.id).contains i))) none)) := by
      simp only [getJurisdictionsByIds, hids', Bool.false_eq_true, if_false, hcond, if_true]
    rw [heval]
    refine ⟨_, rfl, ?_, ?_⟩
    · rw [hmiss_eq]
      intro hnil
      rw [hnil] at hsplit
      simp only [List.length_nil, Nat.add_zero] at hsplit
      omega
    · intro i
      rw [hmiss_eq]
      simp only [List.mem_filter]
      constructor
      · rintro ⟨hu, hnc⟩
        exact ⟨mem_dedupFirst.mp hu, by simpa using hnc⟩
      · rintro ⟨hin, hnc⟩
        exact ⟨mem_dedupFirst.mpr hin, by simpa using hnc⟩

/-- C2: on a live document owned by alice, every one of the four operations
invoked by the non-owner bob fails with `ForbiddenError` (HTTP 403) — not
`NotFoundError` (404) as the claim states — so the existence of another
user's document is confirmed to the caller. -/
theorem crossOwner_forbidden_not_notFound :
    getDocument demoDB "doc-1" "bob" =
      .error (.app (.forbiddenError "You do not have access to this document")) ∧
    (updateDocument demoState
      { userId := "bob", documentId := "doc-1", title := some "X", description := none
        tags := none, requestId := "r", actorIp := "i" }).result =
      .error (.app (.forbiddenError "You do not have access to this document")) ∧
    (deleteDocument demoState "doc-1" "bob" "r" "i" 500).1 =
      .error (.app (.forbiddenError "You do not have access to this document")) ∧
    (downloadDocument demoState "doc-1" "bob" "r" "i" true).1 =
      .error (.app (.forbiddenError "You do not have access to this document")) ∧
    AppError.statusCode (.forbiddenError "You do not have access to this document") = 403 := by
  refine ⟨rfl, rfl, rfl, rfl, rfl⟩

/-- C3: the validator accepts kinds outside pdf and txt (a PNG-signature
buffer yields the png kind), accepts a buffer that is not valid UTF-8 — the
lone byte 0x80 is not UTF-8 — whenever the claimed name ends in `.txt`
(no UTF-8 check exists), and also accepts the csv extension in the
no-signature fallback. -/
theorem validateFileType_beyond_pdf_txt :
    validateFileType pngBytes "chart.png" = .ok ("image/png", "png") ∧
    validateFileType [0x80] "notes.txt" = .ok ("text/plain", "txt") ∧
    validateFileType [0x61] "table.csv" = .ok ("text/csv", "csv") := by
  refine ⟨rfl, rfl, rfl⟩

/-- C8: a successful soft delete sets the delete timestamp and emits the
`document.delete` audit record, but schedules nothing: the purge task queue
is empty afterwards even though the retention constant exists. -/
theorem deleteDocument_schedules_no_purge :
    (deleteDocument demoState "doc-1" "alice" "req-1" "ip" 500).1 = .ok () ∧
    ((deleteDocument demoState "doc-1" "alice" "req-1" "ip" 500).2.db.documents.find?
        (fun d => d.id == "doc-1")).map Document.deletedAt = some (some 500) ∧
    ((deleteDocument demoState "doc-1" "alice" "req-1" "ip" 500).2.db.auditLogs.map
        AuditLogRow.action) = ["document.delete"] ∧
    (deleteDocument demoState "doc-1" "alice" "req-1" "ip" 500).2.purgeTasks = [] ∧
    SOFT_DELETE_RETENTION_DAYS = 30 := by
  refine ⟨rfl, by decide, rfl, rfl, rfl⟩

/-- C5 counterexample: the scenario upload with tags x, x, y stores the
tags verbatim — the stored list is not the deduplicated x, y the claim
requires. -/
theorem upload_tags_not_deduplicated_cex :
    ((uploadDocument demoState upParamsDup { s3PutOk := true, txOk := true } 100).2.db.documents.getLast?).map
        Document.tags = some ["x", "x", "y"] ∧
    dedupFirst ["x", "x", "y"] = ["x", "y"] ∧
    (["x", "x", "y"] : List String) ≠ ["x", "y"] := by
  refine ⟨by decide, rfl, by decide⟩

/-- C9 counterexample: an update supplying tags identical to the stored
tags (and nothing else) still performs the relational write and emits a
`document.update` audit record, where the claim requires no write and no
audit emission. -/
theorem update_identical_tags_writes_cex :
    (updateDocument demoState
      { userId := "alice", documentId := "doc-1", title := none, description := none
        tags := some ["x", "y"], requestId := "r", actorIp := "i" }).wrote = true ∧
    (updateDocument demoState
      { userId := "alice", documentId := "doc-1", title := none, description := none
        tags := some ["x", "y"], requestId := "r", actorIp := "i" }).state.db.auditLogs.map
      AuditLogRow.action = ["document.update"] ∧
    demoState.db.auditLogs = [] := by
  refine ⟨rfl, rfl, rfl⟩

/-- C1 counterexample: when the metadata transaction fails after the blob
write succeeded, the freshly written blob is still in the store afterwards
(an orphan remains — no compensating delete runs), and the caller observes
the propagated store exception. -/
theorem upload_txFail_orphan_cex :
    ((uploadDocument demoState upParamsTxt { s3PutOk := true, txOk := false } 100).2.s3Objects.map
        Prod.fst).contains (generateFileKey "alice" "txt" 0) = true ∧
    (uploadDocument demoState upParamsTxt { s3PutOk := true, txOk := false } 100).1 =
      .error (.unhandled "Relational store transaction failed") := by
  refine ⟨by decide, rfl⟩

/-- C10 counterexample: with no deduplication mechanism, two concurrent
refreshes of the same token can both pass the read phase before either
rotation writes; executing both rotations then yields pairs that are not
bit-identical, refuting the single-rotation, identical-pair claim. -/
theorem refresh_concurrent_distinct_pairs_cex :
    refreshCheck authSt0 tokRefresh "s" 10 = .ok tokRefresh.payload ∧
    (refreshCommit authSt0 tokRefresh.payload "s" 10).1 ≠
      (refreshCommit (refreshCommit authSt0 tokRefresh.payload "s" 10).2
        tokRefresh.payload "s" 10).1 := by
  refine ⟨rfl, by decide⟩

/-- Rows present in the store survive `updateDocument` unchanged whenever
they are soft-deleted (ids pairwise distinct): the update either leaves the
store alone or rewrites a different, live row. -/
theorem updateDocument_preserves_deleted {st : ServiceState} {d : Document}
    (hmem : d ∈ st.db.documents) (hdel : d.deletedAt.isSome = true)
    (hnd : (st.db.documents.map Document.id).Nodup) (p : UpdateDocumentParams) :
    d ∈ (updateDocument st p).state.db.documents := by
  simp only [updateDocument, logAction]
  split
  · simpa using hmem
  next existing hfind =>
    split
    · simpa using hmem
    next hdel2 =>
      split
      · simpa using hmem
      next howner =>
        have hexmem : existing ∈ st.db.documents := List.mem_of_find?_eq_some hfind
        have hexid : existing.id = p.documentId := by simpa using List.find?_some hfind
        have hne : (d.id == p.documentId) = false := by
          simp only [beq_eq_false_iff_ne, ne_eq]
          intro hid
          have hde : d = existing := doc_eq_of_id_eq hnd hmem hexmem (hid.trans hexid.symm)
          rw [hde] at hdel
          simp [hdel] at hdel2
        split
        · simpa using hmem
        · refine List.mem_map.mpr ⟨d, hmem, ?_⟩
          simp only [hne, Bool.false_eq_true, if_false]

/-- Rows present in the store survive `deleteDocument` unchanged whenever
they are already soft-deleted. -/
theorem deleteDocument_preserves_deleted {st : ServiceState} {d : Document}
    (hmem : d ∈ st.db.documents) (hdel : d.deletedAt.isSome = true)
    (hnd : (st.db.documents.map Document.id).Nodup)
    (documentId userId requestId actorIp : String) (now : Nat) :
    d ∈ (deleteDocument st documentId userId requestId actorIp now).2.db.documents := by
  simp only [deleteDocument, logAction]
  split
  · simpa using hmem
  next existing hfind =>
    split
    · simpa using hmem
    next hdel2 =>
      split
      · simpa using hmem
      next howner =>
        have hexmem : existing ∈ st.db.documents := List.mem_of_find?_eq_some hfind
        have hexid : existing.id = documentId := by simpa using List.find?_some hfind
        have hne : (d.id == documentId) = false := by
          simp only [beq_eq_false_iff_ne, ne_eq]
          intro hid
          have hde : d = existing := doc_eq_of_id_eq hnd hmem hexmem (hid.trans hexid.symm)
          rw [hde] at hdel
          simp [hdel] at hdel2
        refine List.mem_map.mpr ⟨d, hmem, ?_⟩
        simp only [hne, Bool.false_eq_true, if_false]

/-- Every row already in the store survives `uploadDocument`: the upload
only ever appends a fresh row. -/
theorem uploadDocument_preserves_docs {st : ServiceState} {d : Document}
    (hmem : d ∈ st.db.documents) (p : UploadDocumentParams) (eff : UploadEffects)
    (now : Nat) :
    d ∈ (uploadDocument st p eff now).2.db.documents := by
  simp only [uploadDocument, logAction]
  split
  · simpa using hmem
  · split
    · simpa using hmem
    · split
      · simpa using hmem
      · split
        · simpa using hmem
        · split
          · simpa using hmem
          · simp only [List.mem_append, List.mem_singleton]
            exact Or.inl hmem

/-- C4: a soft-deleted row is invisible to get, download, update, delete
and the listing, and every lifecycle operation preserves the row — and so
its non-null delete timestamp — in the store. -/
theorem softDeleted_excluded_from_reads
    (st : ServiceState) (d : Document) (uid rid ip : String) (now : Nat) (s3Ok : Bool)
    (q : GetDocumentsParams) (up : UpdateDocumentParams)
    (hmem : d ∈ st.db.documents) (hdel : d.deletedAt.isSome = true)
    (hnd : (st.db.documents.map Document.id).Nodup)
    (hup : up.documentId = d.id) :
    getDocument st.db d.id uid = .error (.app (.notFoundError "Document not found")) ∧
    (downloadDocument st d.id uid rid ip s3Ok).1 =
      .error (.app (.notFoundError "Document not found")) ∧
    (updateDocument st up).result = .error (.app (.notFoundError "Document not found")) ∧
    (deleteDocument st d.id uid rid ip now).1 =
      .error (.app (.notFoundError "Document not found")) ∧
    (∀ fd ∈ (getDocuments st.db q).data, fd.id ≠ d.id) ∧
    (∀ p2 eff now2, d ∈ (uploadDocument st p2 eff now2).2.db.documents) ∧
    (∀ p3, d ∈ (updateDocument st p3).state.db.documents) ∧
    (∀ did uid2 rid2 ip2 now2,
      d ∈ (deleteDocument st did uid2 rid2 ip2 now2).2.db.documents) := by
  have hfind := find?_doc_of_mem hnd hmem
  refine ⟨?_, ?_, ?_, ?_, ?_, ?_, ?_, ?_⟩
  · simp [getDocument, hfind, hdel]
  · simp [downloadDocument, hfind, hdel]
  · simp only [updateDocument]
    rw [hup]
    simp [hfind, hdel]
  · simp [deleteDocument, hfind, hdel]
  · intro fd hfd
    simp only [getDocuments] at hfd
    rcases List.mem_map.mp hfd with ⟨doc, hdoc, rfl⟩
    have hsorted := List.mem_of_mem_drop (List.mem_of_mem_take hdoc)
    have hmatch := mem_sortDocs.mp hsorted
    rcases List.mem_filter.mp hmatch with ⟨hdocmem, hwhere⟩
    have hlive : (doc.deletedAt == none) = true := by
      simp only [matchesWhere, Bool.and_eq_true] at hwhere
      exact hwhere.1.1.1.1.1.2
    intro hid
    have hdoc_eq : doc = d := doc_eq_of_id_eq hnd hdocmem hmem hid
    rw [hdoc_eq] at hlive
    rw [show d.deletedAt = none from by simpa using hlive] at hdel
    simp at hdel
  · intro p2 eff now2
    exact uploadDocument_preserves_docs hmem p2 eff now2
  · intro p3
    exact updateDocument_preserves_deleted hmem hdel hnd p3
  · intro did uid2 rid2 ip2 now2
    exact deleteDocument_preserves_deleted hmem hdel hnd did uid2 rid2 ip2 now2

/-- Witness for C4: the soft-deleted fixture document is invisible to a
get by its owner. -/
theorem softDeleted_excluded_from_reads_witness :
    getDocument demoState.db docGone.id "alice" =
      .error (.app (.notFoundError "Document not found")) :=
  (softDeleted_excluded_from_reads demoState docGone "alice" "r" "i" 500 true
    demoQuery updGoneParams (by decide) (by decide) (by decide) rfl).1

/-- Witness for C7: a batch with one unknown id against the fixture store
falls in the error branch with that id named. -/
theorem getJurisdictionsByIds_all_or_nothing_witness :
    (match getJurisdictionsByIds demoDB ["bc-id", "nope-1", "van-id", "nope-1"] with
     | .ok js =>
       (∀ i ∈ (["bc-id", "nope-1", "van-id", "nope-1"] : List String),
         i ∈ demoDB.jurisdictions.map Jurisdiction.id) ∧
       (∀ i, i ∈ js.map JurisdictionInfo.id ↔
         i ∈ (["bc-id", "nope-1", "van-id", "nope-1"] : List String) ∧
         i ∈ demoDB.jurisdictions.map Jurisdiction.id)
     | .error f =>
       ∃ missing,
         f = .app (.validationError (jurisdictionsNotFoundMsg missing) none) ∧
         missing ≠ [] ∧
         (∀ i, i ∈ missing ↔
           i ∈ (["bc-id", "nope-1", "van-id", "nope-1"] : List String) ∧
           i ∉ demoDB.jurisdictions.map Jurisdiction.id)) :=
  getJurisdictionsByIds_all_or_nothing demoDB ["bc-id", "nope-1", "van-id", "nope-1"]
    (by decide)

/-- C1 (amended): when the metadata-plus-links transaction fails after a
successful blob write, no compensating delete runs: the upload returns the
propagated store exception to the caller, and the final state still holds
the freshly written blob (an orphan), with the relational store untouched. -/
theorem uploadDocument_txFail_orphan
    (st : ServiceState) (p : UploadDocumentParams) (now : Nat) (mt ext : String)
    (hsize : p.file.size ≤ MAX_FILE_SIZE_MB * 1024 * 1024)
    (hval : validateFileType p.file.buffer (sanitizeFilename p.file.originalname) =
      .ok (mt, ext))
    (hjur : ∃ js, getJurisdictionsByIds st.db p.jurisdictionIds = .ok js) :
    uploadDocument st p { s3PutOk := true, txOk := false } now =
      (.error (.unhandled "Relational store transaction failed"),
       { st with
         nextUuid := st.nextUuid + 1
         s3Objects := (generateFileKey p.userId ext st.nextUuid,
           { bytes := p.file.buffer, contentType := mt
             originalFilename := sanitizeFilename p.file.originalname }) ::
           st.s3Objects }) := by
  obtain ⟨js, hjur⟩ := hjur
  have hgt : ¬ (p.file.size > MAX_FILE_SIZE_MB * 1024 * 1024) := by omega
  simp [uploadDocument, hgt, hval, hjur]

/-- Witness for C1 at the fixture state: the transaction-failing upload of
`notes.txt` leaves the new blob in the store and surfaces the store error. -/
theorem uploadDocument_txFail_orphan_witness :
    uploadDocument demoState upParamsTxt { s3PutOk := true, txOk := false } 100 =
      (.error (.unhandled "Relational store transaction failed"),
       { demoState with
         nextUuid := demoState.nextUuid + 1
         s3Objects := (generateFileKey upParamsTxt.userId "txt" demoState.nextUuid,
           { bytes := upParamsTxt.file.buffer, contentType := "text/plain"
             originalFilename := sanitizeFilename upParamsTxt.file.originalname }) ::
           demoState.s3Objects }) :=
  uploadDocument_txFail_orphan demoState upParamsTxt 100 "text/plain" "txt"
    (by decide) rfl ⟨_, rfl⟩

/-- C5 (amended): a fully successful upload stores the declared tags
verbatim — no deduplication — and creates exactly one jurisdiction link per
element of the input id list, in input order; the id list is deduplicated
for validation only, never for link creation. -/
theorem upload_stores_declared_tags_and_links
    (st : ServiceState) (p : UploadDocumentParams) (now : Nat) (mt ext : String)
    (hsize : p.file.size ≤ MAX_FILE_SIZE_MB * 1024 * 1024)
    (hval : validateFileType p.file.buffer (sanitizeFilename p.file.originalname) =
      .ok (mt, ext))
    (hjur : ∃ js, getJurisdictionsByIds st.db p.jurisdictionIds = .ok js) :
    ((uploadDocument st p { s3PutOk := true, txOk := true } now).2.db.documents.map
      Document.tags) = (st.db.documents.map Document.tags) ++ [p.tags.getD []] ∧
    (uploadDocument st p { s3PutOk := true, txOk := true } now).2.db.links =
      st.db.links ++ p.jurisdictionIds.map (fun jId =>
        { documentId := uuidStr (st.nextUuid + 1), jurisdictionId := jId }) := by
  obtain ⟨js, hjur⟩ := hjur
  have hgt : ¬ (p.file.size > MAX_FILE_SIZE_MB * 1024 * 1024) := by omega
  constructor
  · simp [uploadDocument, logAction, hgt, hval, hjur]
  · simp [uploadDocument, logAction, hgt, hval, hjur]

/-- Witness for C5: the scenario upload succeeds and stores tags x, x, y
verbatim with one link per input id. -/
theorem upload_stores_declared_tags_and_links_witness :
    ((uploadDocument demoState upParamsDup { s3PutOk := true, txOk := true } 100).2.db.documents.map
      Document.tags) =
      (demoState.db.documents.map Document.tags) ++ [(["x", "x", "y"] : List String)] ∧
    (uploadDocument demoState upParamsDup { s3PutOk := true, txOk := true } 100).2.db.links =
      demoState.db.links ++ (["bc-id", "van-id"] : List String).map (fun jId =>
        { documentId := uuidStr (demoState.nextUuid + 1), jurisdictionId := jId }) :=
  upload_stores_declared_tags_and_links demoState upParamsDup 100 "text/plain" "txt"
    (by decide) rfl ⟨_, rfl⟩

/-- C6: a successful refresh leaves the presented token's id in the
revocation store; any later refresh presenting the same, still-unexpired
token fails with the token-revoked error, and no later refresh of that
token can ever mint a pair again. -/
theorem refreshToken_rotation_rejects_reuse
    (st : AuthState) (t : SignedToken) (secret : String) (now : Nat)
    (pair : SignedToken × SignedToken) (st2 : AuthState)
    (h : refreshToken st t secret now = (.ok pair, st2)) :
    t.payload.jti ∈ st2.revoked ∧
    (∀ now2, now2 < t.payload.exp →
      refreshToken st2 t secret now2 =
        (.error (.app (.authenticationError "Token has been revoked")), st2)) ∧
    (∀ now2 pair2 st3, refreshToken st2 t secret now2 ≠ (.ok pair2, st3)) := by
  unfold refreshToken at h
  cases hc : refreshCheck st t secret now with
  | error f =>
    rw [hc] at h
    exact absurd h (by simp)
  | ok payload =>
    rw [hc] at h
    have hst2 : st2 = { revoked := payload.jti :: st.revoked, nextUuid := st.nextUuid + 2 } := by
      have := congrArg Prod.snd h
      simpa [refreshCommit, generateTokens] using this.symm
    -- dissect the successful check
    unfold refreshCheck at hc
    cases hv : jwtVerify t secret now with
    | none =>
      rw [hv] at hc
      exact absurd hc (by simp)
    | some pl =>
      rw [hv] at hc
      dsimp only at hc
      have hplt : pl = t.payload := by
        unfold jwtVerify at hv
        split at hv
        · simpa using hv.symm
        · exact absurd hv (by simp)
      have hsec : t.secret = secret := by
        unfold jwtVerify at hv
        split at hv
        next hcond =>
          have := (Bool.and_eq_true _ _).mp hcond
          simpa using this.1
        · exact absurd hv (by simp)
      by_cases hty : (pl.type != "refresh") = true
      · rw [if_pos hty] at hc
        exact absurd hc (by simp)
      rw [if_neg hty] at hc
      by_cases hrev : st.revoked.contains pl.jti = true
      · rw [if_pos hrev] at hc
        exact absurd hc (by simp)
      rw [if_neg hrev] at hc
      have hpl2 : pl = payload := by simpa using hc
      have htype : t.payload.type = "refresh" := by
        rw [← hplt]
        simpa [bne_iff_ne] using hty
      subst hpl2
      rw [hplt] at hst2
      have hnot2 : ∀ now2,
          refreshCheck st2 t secret now2 =
            .error (.app (.authenticationError "Invalid or expired refresh token")) ∨
          refreshCheck st2 t secret now2 =
            .error (.app (.authenticationError "Token has been revoked")) := by
        intro now2
        unfold refreshCheck
        cases hv2 : jwtVerify t secret now2 with
        | none => exact Or.inl rfl
        | some pl2 =>
          have hpl2t : pl2 = t.payload := by
            unfold jwtVerify at hv2
            split at hv2
            · simpa using hv2.symm
            · exact absurd hv2 (by simp)
          right
          dsimp only
          rw [hpl2t]
          rw [if_neg (by simp [htype])]
          rw [if_pos (by rw [hst2]; simp)]
      refine ⟨?_, ?_, ?_⟩
      · rw [hst2]
        exact List.mem_cons_self _ _
      · intro now2 hlt
        have hver2 : jwtVerify t secret now2 = some t.payload := by
          simp [jwtVerify, hsec, hlt]
        simp [refreshToken, refreshCheck, hver2, htype, hst2]
      · intro now2 pair2 st3 heq
        rcases hnot2 now2 with h2 | h2 <;>
          · unfold refreshToken at heq
            rw [h2] at heq
            exact absurd heq (by simp)

/-- Witness for C6: after the fixture token is rotated once, its id sits in
the revocation store. -/
theorem refreshToken_rotation_rejects_reuse_witness :
    tokRefresh.payload.jti ∈ (refreshCommit authSt0 tokRefresh.payload "s" 10).2.revoked :=
  (refreshToken_rotation_rejects_reuse authSt0 tokRefresh "s" 10
    (refreshCommit authSt0 tokRefresh.payload "s" 10).1
    (refreshCommit authSt0 tokRefresh.payload "s" 10).2 rfl).1

/-- C9 (amended): the no-op guard of `updateDocument` covers only the
title and description fields: when both are absent or identical and no tags
field is supplied, no write and no audit happen and the stored document is
re-read; but any supplied tags field — identical or not — always triggers
the write and exactly one audit record. -/
theorem updateDocument_noop_guard (st : ServiceState) (p : UpdateDocumentParams)
    (existing : Document)
    (hfind : st.db.documents.find? (fun x => x.id == p.documentId) = some existing)
    (hdel : existing.deletedAt = none)
    (hown : existing.userId = p.userId) :
    ((p.title = none ∨ p.title = some existing.title) →
     (p.description = none ∨ p.description = some existing.description) →
     p.tags = none →
     updateDocument st p =
       { result := getDocument st.db p.documentId p.userId, state := st, wrote := false }) ∧
    (∀ ts, p.tags = some ts →
      (updateDocument st p).wrote = true ∧
      (updateDocument st p).state.db.auditLogs.length = st.db.auditLogs.length + 1) := by
  constructor
  · intro ht hd htags
    rcases ht with ht | ht <;> rcases hd with hd | hd <;>
      simp [updateDocument, hfind, hdel, ← hown, ht, hd, htags, bne_self_eq_false]
  · intro ts hts
    refine ⟨?_, ?_⟩ <;>
      simp [updateDocument, logAction, hfind, hdel, ← hown, hts, bne_self_eq_false]

/-- Witness for C9: a fully-identical-and-absent update on the fixture
document is a pure no-op. -/
theorem updateDocument_noop_guard_witness :
    updateDocument demoState
      { userId := "alice", documentId := "doc-1", title := none, description := none
        tags := none, requestId := "r", actorIp := "i" } =
      { result := getDocument demoState.db "doc-1" "alice", state := demoState
        wrote := false } :=
  (updateDocument_noop_guard demoState
    { userId := "alice", documentId := "doc-1", title := none, description := none
      tags := none, requestId := "r", actorIp := "i" }
    docAlice (by decide) rfl rfl).1 (Or.inl rfl) (Or.inl rfl) rfl

/-- C10 (amended): the code deduplicates nothing. After one rotation, a
sequentially observed second refresh of the same token is rejected with the
token-revoked error instead of observing the first caller's pair; and when
both calls pass the revocation check before either writes, the second
commit still performs a full second rotation — a second revocation insert
and two more minted token ids. -/
theorem refreshToken_no_dedup (st : AuthState) (t : SignedToken) (secret : String)
    (now : Nat) (payload : TokenPayload)
    (h : refreshCheck st t secret now = .ok payload) :
    (refreshToken (refreshCommit st payload secret now).2 t secret now).1 =
      .error (.app (.authenticationError "Token has been revoked")) ∧
    (refreshCommit (refreshCommit st payload secret now).2 payload secret now).2.revoked =
      payload.jti :: payload.jti :: st.revoked ∧
    (refreshCommit (refreshCommit st payload secret now).2 payload secret now).2.nextUuid =
      st.nextUuid + 4 := by
  -- dissect the successful check as in the rotation theorem
  unfold refreshCheck at h
  cases hv : jwtVerify t secret now with
  | none =>
    rw [hv] at h
    exact absurd h (by simp)
  | some pl =>
    rw [hv] at h
    dsimp only at h
    have hplt : pl = t.payload := by
      unfold jwtVerify at hv
      split at hv
      · simpa using hv.symm
      · exact absurd hv (by simp)
    have hver : jwtVerify t secret now = some t.payload := by rw [hv, hplt]
    by_cases hty : (pl.type != "refresh") = true
    · rw [if_pos hty] at h
      exact absurd h (by simp)
    rw [if_neg hty] at h
    by_cases hrev : st.revoked.contains pl.jti = true
    · rw [if_pos hrev] at h
      exact absurd h (by simp)
    rw [if_neg hrev] at h
    have hpl2 : pl = payload := by simpa using h
    have htype : t.payload.type = "refresh" := by
      rw [← hplt]
      simpa [bne_iff_ne] using hty
    have hjti : payload.jti = t.payload.jti := by rw [← hpl2, hplt]
    refine ⟨?_, ?_, ?_⟩
    · simp [refreshToken, refreshCheck, refreshCommit, generateTokens, hver, htype, hjti]
    · simp [refreshCommit, generateTokens]
    · simp [refreshCommit, generateTokens]

/-- Witness for C10 at the fixture token: the sequential second caller is
rejected once the first rotation has committed. -/
theorem refreshToken_no_dedup_witness :
    (refreshToken (refreshCommit authSt0 tokRefresh.payload "s" 10).2 tokRefresh "s" 10).1 =
      .error (.app (.authenticationError "Token has been revoked")) :=
  (refreshToken_no_dedup authSt0 tokRefresh "s" 10 tokRefresh.payload rfl).1

end LexVault
